import Mathlib

/-!
Verification of the miniature-GPT text-generation notebook
(`GPU_Emissions_text_generation_with_miniature_gpt_ct.ipynb`).

The development shallowly embeds the algorithmic core of the notebook:

* `causal_attention_mask` — the causal mask tensor;
* `TokenAndPositionEmbedding.call` — token plus position embedding;
* `TransformerBlock.call` — the single decoder block (multi-head causal
  self-attention, dropout, residual connections, layer normalization,
  position-wise feed-forward network);
* `TextGenerator` — the epoch-end sampling callback (`sample_from`,
  `on_epoch_end` with its window-building and generation loop).

Real-valued tensor arithmetic is idealized over `ℝ` (exact reals instead of
floats; attention masking is the usual minus-infinity idealization, i.e. a
softmax restricted to the unmasked positions).  Integer-level control flow
(window building, the generation loop, top-k index selection) is embedded
as computable functions.  External library calls are modelled by their
documented contracts: `ops.top_k` as "the k largest entries, sorted
descending", `np.random.choice(indices, p=preds)` as an injected choice of
one position of `indices`, and `model.predict` composed with `sample_from`
as an abstract `step` function from the input window and sample index to
the sampled token id.
-/

/-- Notebook global `vocab_size = 20000`. -/
def vocab_size : ℕ := 20000

/-- Notebook global `maxlen = 80`. -/
def maxlen : ℕ := 80

/-- Entry `[i][j]` of the mask built by `causal_attention_mask`:
`i = ops.arange(n_dest)[:, None]`, `j = ops.arange(n_src)`,
`m = i >= j - n_src + n_dest`, with integer arithmetic. -/
def causalMaskEntry (n_dest n_src i j : ℕ) : Bool :=
  decide ((i : ℤ) ≥ (j : ℤ) - (n_src : ℤ) + (n_dest : ℤ))

/-- `causal_attention_mask(batch_size, n_dest, n_src, dtype)`: the entry
matrix `m` reshaped to `[1, n_dest, n_src]` and tiled `batch_size` times
along the batch dimension, so every batch slice is the same matrix. -/
def causal_attention_mask (batch_size n_dest n_src : ℕ) :
    Fin batch_size → Fin n_dest → Fin n_src → Bool :=
  fun _ i j => causalMaskEntry n_dest n_src i j

/-- State of the `TextGenerator` Keras callback: the fields assigned in
`TextGenerator.__init__`. -/
structure TextGenerator where
  max_tokens : ℕ
  start_tokens : List ℕ
  index_to_word : List String
  print_every : ℕ
  k : ℕ

/-- `TextGenerator.__init__(max_tokens, start_tokens, index_to_word, top_k,
print_every)`: stores every argument on `self` (with `self.k = top_k`) and
performs no validation of any of them. -/
def TextGenerator.init (max_tokens : ℕ) (start_tokens : List ℕ)
    (index_to_word : List String) (top_k : ℕ) (print_every : ℕ) :
    TextGenerator :=
  ⟨max_tokens, start_tokens, index_to_word, print_every, top_k⟩

/-- Window construction inside the `on_epoch_end` loop body:
`pad_len = maxlen - len(start_tokens)`, `sample_index = len(start_tokens) - 1`;
if `pad_len < 0` then `x = start_tokens[:maxlen]` (the first `maxlen`
tokens) and `sample_index = maxlen - 1`; if `pad_len > 0` then
`x = start_tokens + [0] * pad_len`; otherwise `x = start_tokens`.
Returns `(x, sample_index)`; `sample_index` is kept as a Python integer
(an `ℤ`, since `len(start_tokens) - 1` may be `-1`). -/
def buildWindow (start_tokens : List ℕ) : List ℕ × ℤ :=
  let pad_len : ℤ := (maxlen : ℤ) - start_tokens.length
  let sample_index : ℤ := (start_tokens.length : ℤ) - 1
  if pad_len < 0 then (start_tokens.take maxlen, (maxlen : ℤ) - 1)
  else if pad_len > 0 then
    (start_tokens ++ List.replicate (maxlen - start_tokens.length) 0,
      sample_index)
  else (start_tokens, sample_index)

/-- The `while num_tokens_generated <= self.max_tokens` loop of
`on_epoch_end`.  `step x sample_index` abstracts
`self.sample_from(self.model.predict(np.array([x]))[0][0][sample_index])`,
i.e. the composition of the external forward pass with `sample_from`.
Each iteration builds the window from the current working sequence,
samples one token, and appends it to both the working sequence and
`tokens_generated`; the loop exits once
`len(tokens_generated) > max_tokens`.  Returns the final
`(start_tokens, tokens_generated)` pair. -/
def genLoop (step : List ℕ → ℤ → ℕ) (max_tokens : ℕ)
    (start_tokens tokens_generated : List ℕ) : List ℕ × List ℕ :=
  if _h : tokens_generated.length ≤ max_tokens then
    let w := buildWindow start_tokens
    let sample_token := step w.1 w.2
    genLoop step max_tokens (start_tokens ++ [sample_token])
      (tokens_generated ++ [sample_token])
  else (start_tokens, tokens_generated)
termination_by max_tokens + 1 - tokens_generated.length
decreasing_by simp only [List.length_append, List.length_cons,
  List.length_nil]; omega

/-- `TextGenerator.on_epoch_end(epoch)`: copies `self.start_tokens` into a
local list, returns early (printing nothing) unless
`(epoch + 1) % print_every == 0`, otherwise runs the generation loop and
prints `self.start_tokens + tokens_generated`.  The result pair is the
callback state after the call together with the token sequence printed
(`none` when the early return fires).  No field of `self` is assigned
anywhere in the method body. -/
def TextGenerator.on_epoch_end (self : TextGenerator)
    (step : List ℕ → ℤ → ℕ) (epoch : ℕ) :
    TextGenerator × Option (List ℕ) :=
  if (epoch + 1) % self.print_every ≠ 0 then (self, none)
  else
    let r := genLoop step self.max_tokens self.start_tokens []
    (self, some (self.start_tokens ++ r.2))

/-- Iterated invocations of the callback: `runEpochs g step e` is the
callback state after epochs `0, 1, …, e-1` have each triggered
`on_epoch_end`. -/
def runEpochs (g : TextGenerator) (step : List ℕ → ℤ → ℕ) : ℕ → TextGenerator
  | 0 => g
  | e + 1 => ((runEpochs g step e).on_epoch_end step e).1

/-- Concrete step oracle for witnesses: always samples token id 7. -/
def stepConst : List ℕ → ℤ → ℕ := fun _ _ => 7

/-- Concrete callback state for witnesses: budget 0, prompt `[5, 12, 9]`,
`print_every = 1`, `top_k = 10`. -/
def genDemo : TextGenerator := TextGenerator.init 0 [5, 12, 9] [] 10 1

/-- Order used by the model of `ops.top_k`: `a` is ranked at or before `b`
when `logits a ≥ logits b`. -/
def topKRel {V : ℕ} (logits : Fin V → ℚ) : Fin V → Fin V → Prop :=
  fun a b => logits b ≤ logits a

instance {V : ℕ} (logits : Fin V → ℚ) : DecidableRel (topKRel logits) :=
  fun a b => inferInstanceAs (Decidable (logits b ≤ logits a))

instance {V : ℕ} (logits : Fin V → ℚ) : IsTotal (Fin V) (topKRel logits) :=
  ⟨fun a b => le_total (logits b) (logits a)⟩

instance {V : ℕ} (logits : Fin V → ℚ) : IsTrans (Fin V) (topKRel logits) :=
  ⟨fun _ _ _ hab hbc => le_trans hbc hab⟩

/-- Index part of `ops.top_k(logits, k=self.k, sorted=True)` inside
`sample_from`.  `ops.top_k` is an external library call, modelled by its
documented contract: the indices of the `k` largest entries, in
descending order of logit. -/
def topKIndices {V : ℕ} (logits : Fin V → ℚ) (k : ℕ) : List (Fin V) :=
  (List.insertionSort (topKRel logits) (List.finRange V)).take k

/-- `TextGenerator.sample_from(logits)`: restrict to the top `self.k`
logits and draw one of their indices.  `np.random.choice(indices, p=preds)`
is modelled by an injected draw `r` of one position of the index list;
the returned token id is `indices[r]`. -/
def TextGenerator.sample_from (self : TextGenerator) {V : ℕ}
    (logits : Fin V → ℚ) (r : Fin (topKIndices logits self.k).length) :
    Fin V :=
  (topKIndices logits self.k).get r

noncomputable section

/-- `keras.activations.softmax` over a vector, idealized over `ℝ`. -/
def softmax {m : ℕ} (v : Fin m → ℝ) : Fin m → ℝ :=
  fun i => Real.exp (v i) / ∑ j, Real.exp (v j)

/-- The probability vector `preds` computed inside `sample_from`: the
softmax of exactly the `k` top logit values. -/
def sampleProbs {V : ℕ} (logits : Fin V → ℚ) (k : ℕ) :
    Fin (topKIndices logits k).length → ℝ :=
  softmax fun i => ((logits ((topKIndices logits k).get i) : ℚ) : ℝ)

/-- `TokenAndPositionEmbedding.call(x)` on a window of length `n ≤ L`
(the layer is built with `input_dim = maxlen` for positions):
`positions = ops.arange(0, n)` — absolute offsets within the current
window, restarting at 0 on every invocation — then
`self.pos_emb(positions) + self.token_emb(x)` elementwise. -/
def TokenAndPositionEmbedding.call {n L V D : ℕ} (hn : n ≤ L)
    (token_emb : Fin V → Fin D → ℝ) (pos_emb : Fin L → Fin D → ℝ)
    (x : Fin n → Fin V) : Fin n → Fin D → ℝ :=
  let positions : Fin n → Fin L :=
    fun p => ⟨(p : ℕ), lt_of_lt_of_le p.isLt hn⟩
  fun p d => token_emb (x p) d + pos_emb (positions p) d

/-- Learned weights of one `TransformerBlock` with embedding dimension
`D`, `H` attention heads of key/value dimension `dk`, and feed-forward
hidden width `F`: per-head query/key/value projections with biases, the
attention output projection, the two feed-forward layers, and the two
layer-normalization scale/shift pairs. -/
structure TransformerBlockWeights (D H dk F : ℕ) where
  wq : Fin H → Fin D → Fin dk → ℝ
  bq : Fin H → Fin dk → ℝ
  wk : Fin H → Fin D → Fin dk → ℝ
  bk : Fin H → Fin dk → ℝ
  wv : Fin H → Fin D → Fin dk → ℝ
  bv : Fin H → Fin dk → ℝ
  wo : Fin H → Fin dk → Fin D → ℝ
  bo : Fin D → ℝ
  w1 : Fin D → Fin F → ℝ
  b1 : Fin F → ℝ
  w2 : Fin F → Fin D → ℝ
  b2 : Fin D → ℝ
  gamma1 : Fin D → ℝ
  beta1 : Fin D → ℝ
  gamma2 : Fin D → ℝ
  beta2 : Fin D → ℝ

/-- Query vector of head `h` at position `i` inside
`layers.MultiHeadAttention`: row `i` of the input times the head's query
projection, plus bias. -/
def queryVec {n D H dk F : ℕ} (W : TransformerBlockWeights D H dk F)
    (X : Fin n → Fin D → ℝ) (h : Fin H) (i : Fin n) (a : Fin dk) : ℝ :=
  (∑ d, X i d * W.wq h d a) + W.bq h a

/-- Key vector of head `h` at position `j`. -/
def keyVec {n D H dk F : ℕ} (W : TransformerBlockWeights D H dk F)
    (X : Fin n → Fin D → ℝ) (h : Fin H) (j : Fin n) (a : Fin dk) : ℝ :=
  (∑ d, X j d * W.wk h d a) + W.bk h a

/-- Value vector of head `h` at position `j`. -/
def valueVec {n D H dk F : ℕ} (W : TransformerBlockWeights D H dk F)
    (X : Fin n → Fin D → ℝ) (h : Fin H) (j : Fin n) (a : Fin dk) : ℝ :=
  (∑ d, X j d * W.wv h d a) + W.bv h a

/-- Scaled dot-product attention score of query position `i` against key
position `j` in head `h`. -/
def attnScore {n D H dk F : ℕ} (W : TransformerBlockWeights D H dk F)
    (X : Fin n → Fin D → ℝ) (h : Fin H) (i j : Fin n) : ℝ :=
  (∑ a, queryVec W X h i a * keyVec W X h j a) / Real.sqrt (dk : ℝ)

/-- Attention weight after applying
`causal_attention_mask(batch_size, seq_len, seq_len, "bool")` and
softmax: masked positions receive weight 0 (the minus-infinity masking
idealization) and the softmax normalizes over the unmasked positions of
row `i` only. -/
def attnWeight {n D H dk F : ℕ} (W : TransformerBlockWeights D H dk F)
    (X : Fin n → Fin D → ℝ) (h : Fin H) (i j : Fin n) : ℝ :=
  if causalMaskEntry n n (i : ℕ) (j : ℕ) then
    Real.exp (attnScore W X h i j) /
      ∑ j' : Fin n,
        if causalMaskEntry n n (i : ℕ) (j' : ℕ) then
          Real.exp (attnScore W X h i j')
        else 0
  else 0

/-- Output of head `h` at position `i`: the attention-weighted sum of the
value vectors. -/
def attnHeadRow {n D H dk F : ℕ} (W : TransformerBlockWeights D H dk F)
    (X : Fin n → Fin D → ℝ) (h : Fin H) (i : Fin n) (a : Fin dk) : ℝ :=
  ∑ j, attnWeight W X h i j * valueVec W X h j a

/-- Row `i` of `self.att(inputs, inputs, attention_mask=causal_mask)`:
heads concatenated and passed through the output projection plus bias. -/
def attentionRow {n D H dk F : ℕ} (W : TransformerBlockWeights D H dk F)
    (X : Fin n → Fin D → ℝ) (i : Fin n) : Fin D → ℝ :=
  fun d => (∑ h, ∑ a, attnHeadRow W X h i a * W.wo h a d) + W.bo d

/-- `layers.LayerNormalization(epsilon=1e-6)` applied to one row:
normalize across the feature dimension with the layer's learned scale and
shift. -/
def layerNormRow {D : ℕ} (eps : ℝ) (gamma beta : Fin D → ℝ)
    (x : Fin D → ℝ) : Fin D → ℝ :=
  let mu := (∑ d, x d) / (D : ℝ)
  let sigma2 := (∑ d, (x d - mu) ^ 2) / (D : ℝ)
  fun d => gamma d * ((x d - mu) / Real.sqrt (sigma2 + eps)) + beta d

/-- The epsilon of both layer normalizations, `1e-6`. -/
def layerNormEps : ℝ := 1 / 1000000

/-- The rectifying nonlinearity of the first feed-forward layer
(`activation="relu"`). -/
def reluR (x : ℝ) : ℝ := max x 0

/-- `self.ffn` applied to one row: `Dense(ff_dim, activation="relu")`
followed by `Dense(embed_dim)`. -/
def ffnRow {D H dk F : ℕ} (W : TransformerBlockWeights D H dk F)
    (x : Fin D → ℝ) : Fin D → ℝ :=
  fun d => (∑ f, reluR ((∑ e, x e * W.w1 e f) + W.b1 f) * W.w2 f d) + W.b2 d

/-- `layers.Dropout(rate)`: identity at inference; during training each
entry is multiplied by its (scaled) random keep mask, here abstracted as
an injected `noise` matrix. -/
def dropoutLayer {n D : ℕ} (training : Bool) (noise x : Fin n → Fin D → ℝ) :
    Fin n → Fin D → ℝ :=
  if training then fun i d => x i d * noise i d else x

/-- `TransformerBlock.call(inputs)`: causal multi-head self-attention,
dropout, first residual plus layer normalization, position-wise
feed-forward network, dropout, second residual plus layer
normalization. -/
def TransformerBlock.call {n D H dk F : ℕ}
    (W : TransformerBlockWeights D H dk F) (training : Bool)
    (noise1 noise2 : Fin n → Fin D → ℝ) (inputs : Fin n → Fin D → ℝ) :
    Fin n → Fin D → ℝ :=
  let attention_output := fun i => attentionRow W inputs i
  let attention_output := dropoutLayer training noise1 attention_output
  let out1 := fun i => layerNormRow layerNormEps W.gamma1 W.beta1
    (fun d => inputs i d + attention_output i d)
  let ffn_output := fun i => ffnRow W (out1 i)
  let ffn_output := dropoutLayer training noise2 ffn_output
  fun i => layerNormRow layerNormEps W.gamma2 W.beta2
    (fun d => out1 i d + ffn_output i d)

end

/-- Constant-zero logits vector over the vocabulary, used by witnesses. -/
def logitsDemo : Fin vocab_size → ℚ := fun _ => 0

/-- Position 0 of the top-10 index list for `logitsDemo`: the concrete
injected random draw used by the C5 witness. -/
def sampleDemoIndex : Fin (topKIndices logitsDemo genDemo.k).length :=
  ⟨0, by
    rw [topKIndices, List.length_take, List.length_insertionSort,
      List.length_finRange]
    show 0 < min genDemo.k vocab_size
    decide⟩

/-- Demo position `0` in a window of length 2. -/
def p0 : Fin 2 := ⟨0, by decide⟩

/-- Demo token table (vocabulary 3, embedding dimension 1). -/
noncomputable def tokDemo : Fin 3 → Fin 1 → ℝ := fun t _ => (t : ℝ)

/-- Demo position table (window capacity `maxlen`, dimension 1). -/
noncomputable def posDemo : Fin maxlen → Fin 1 → ℝ := fun p _ => (p : ℝ)

/-- Demo token window of length 2. -/
def tDemo : Fin 2 → Fin 3 := fun _ => 1

/-- A second demo window agreeing with `tDemo` at position 0 and
differing at position 1. -/
def tDemo' : Fin 2 → Fin 3 := fun p => if p = p0 then 1 else 2

/-- All-zero transformer block weights (`D = H = dk = F = 1`). -/
noncomputable def wDemo : TransformerBlockWeights 1 1 1 1 :=
  ⟨fun _ _ _ => 0, fun _ _ => 0, fun _ _ _ => 0, fun _ _ => 0,
    fun _ _ _ => 0, fun _ _ => 0, fun _ _ _ => 0, fun _ => 0,
    fun _ _ => 0, fun _ => 0, fun _ _ => 0, fun _ => 0,
    fun _ => 0, fun _ => 0, fun _ => 0, fun _ => 0⟩

/-- All-zero dropout noise for a 2-row, 1-column activation. -/
noncomputable def noiseDemo : Fin 2 → Fin 1 → ℝ := fun _ _ => 0

/-- C1: for every destination count `n_dest`, source count `n_src`, and
indices `i < n_dest`, `j < n_src`, the causal mask entry `M[i][j]` is true
exactly when `i ≥ j - n_src + n_dest` (integer arithmetic); in particular,
when the destination and source counts are both `n`, `M[i][j]` is true
exactly when `i ≥ j`.  This holds in every batch slice. -/
theorem causal_mask_rule :
    (∀ (B n_dest n_src : ℕ) (b : Fin B) (i : Fin n_dest) (j : Fin n_src),
        causal_attention_mask B n_dest n_src b i j = true ↔
          (i : ℤ) ≥ (j : ℤ) - (n_src : ℤ) + (n_dest : ℤ)) ∧
    (∀ (B n : ℕ) (b : Fin B) (i j : Fin n),
        causal_attention_mask B n n b i j = true ↔ (j : ℕ) ≤ (i : ℕ)) := by
  constructor
  · intro B n_dest n_src b i j
    simp [causal_attention_mask, causalMaskEntry]
  · intro B n b i j
    simp only [causal_attention_mask, causalMaskEntry, decide_eq_true_eq,
      ge_iff_le]
    omega

theorem genLoop_stop {step : List ℕ → ℤ → ℕ} {mt : ℕ} {st tg : List ℕ}
    (h : ¬ tg.length ≤ mt) : genLoop step mt st tg = (st, tg) := by
  rw [genLoop.eq_def, dif_neg h]

theorem genLoop_cont {step : List ℕ → ℤ → ℕ} {mt : ℕ} {st tg : List ℕ}
    (h : tg.length ≤ mt) :
    genLoop step mt st tg =
      genLoop step mt (st ++ [step (buildWindow st).1 (buildWindow st).2])
        (tg ++ [step (buildWindow st).1 (buildWindow st).2]) := by
  rw [genLoop.eq_def, dif_pos h]

theorem genLoop_snd_length (step : List ℕ → ℤ → ℕ) (mt : ℕ) :
    ∀ (fuel : ℕ) (st tg : List ℕ), mt + 1 - tg.length ≤ fuel →
      ((genLoop step mt st tg).2).length = max tg.length (mt + 1) := by
  intro fuel
  induction fuel with
  | zero =>
    intro st tg hf
    have h : ¬ tg.length ≤ mt := by omega
    rw [genLoop_stop h]
    show tg.length = max tg.length (mt + 1)
    omega
  | succ m ih =>
    intro st tg hf
    by_cases h : tg.length ≤ mt
    · rw [genLoop_cont h,
        ih _ _ (by simp only [List.length_append, List.length_cons,
          List.length_nil]; omega)]
      simp only [List.length_append, List.length_cons, List.length_nil]
      omega
    · rw [genLoop_stop h]
      show tg.length = max tg.length (mt + 1)
      omega

/-- C3: the generation loop's guard is
`num_tokens_generated <= self.max_tokens`, so the loop body runs
`max_tokens + 1` times and the printed sequence has length
`len(start_tokens) + max_tokens + 1` — one more than the configured
budget, in contradiction with the callback's own docstring
("`max_tokens`: the number of tokens to be generated after prompt"). -/
theorem on_epoch_end_output_length (g : TextGenerator)
    (step : List ℕ → ℤ → ℕ) (epoch : ℕ) (out : List ℕ)
    (h : (g.on_epoch_end step epoch).2 = some out) :
    out.length = g.start_tokens.length + g.max_tokens + 1 := by
  by_cases hp : (epoch + 1) % g.print_every ≠ 0
  · have hnone : (g.on_epoch_end step epoch).2 = none := by
      unfold TextGenerator.on_epoch_end
      rw [if_pos hp]
    rw [hnone] at h
    exact absurd h (by simp)
  · have hsome : (g.on_epoch_end step epoch).2 =
        some (g.start_tokens ++
          (genLoop step g.max_tokens g.start_tokens []).2) := by
      unfold TextGenerator.on_epoch_end
      rw [if_neg hp]
    rw [hsome, Option.some.injEq] at h
    subst h
    have hl := genLoop_snd_length step g.max_tokens (g.max_tokens + 1)
      g.start_tokens [] (by simp)
    simp only [List.length_append, hl, List.length_nil]
    omega

theorem genDemo_run :
    (genDemo.on_epoch_end stepConst 0).2 = some [5, 12, 9, 7] := by
  rw [TextGenerator.on_epoch_end]
  rw [genLoop_cont (by simp [genDemo, TextGenerator.init])]
  rw [genLoop_stop (by simp [genDemo, TextGenerator.init])]
  simp [genDemo, TextGenerator.init, stepConst]

/-- C3 witness: with prompt `[5, 12, 9]` and budget `max_tokens = 0`, one
invocation of `on_epoch_end` prints a sequence of length `3 + 0 + 1 = 4`
(the spec's claim would demand length 3, the prompt unchanged). -/
theorem on_epoch_end_output_length_witness :
    (genDemo.on_epoch_end stepConst 0).2 = some [5, 12, 9, 7] ∧
      ([5, 12, 9, 7] : List ℕ).length =
        genDemo.start_tokens.length + genDemo.max_tokens + 1 :=
  ⟨genDemo_run, on_epoch_end_output_length genDemo stepConst 0 _ genDemo_run⟩

/-- C4 counterexample: for the working sequence `0, 1, …, 80` (length 81,
longer than `maxlen = 80`), the claim "the model input window consists of
the last `maxlen` tokens and `sample_index = maxlen - 1`" is false: the
code takes `start_tokens[:maxlen]`, the *first* 80 tokens. -/
theorem window_truncation_not_last_tokens :
    ¬ ((buildWindow (List.range 81)).1 =
          (List.range 81).drop ((List.range 81).length - maxlen) ∧
        (buildWindow (List.range 81)).2 = (maxlen : ℤ) - 1) := by
  decide

/-- C4 (amended): in every loop iteration, if the working sequence is
shorter than `maxlen` the window is the sequence right-padded with id 0 to
length `maxlen` and `sample_index = len - 1`; if it is longer than
`maxlen` the window is the *first* `maxlen` tokens (`start_tokens[:maxlen]`,
not the last `maxlen`) and `sample_index = maxlen - 1`. -/
theorem window_build_rule (s : List ℕ) :
    (s.length < maxlen →
        buildWindow s =
          (s ++ List.replicate (maxlen - s.length) 0, (s.length : ℤ) - 1)) ∧
    (maxlen < s.length →
        buildWindow s = (s.take maxlen, (maxlen : ℤ) - 1)) := by
  constructor <;> intro h <;>
    · simp only [buildWindow]
      split_ifs with h1 h2 <;> first | rfl | omega

/-- C4 witness: the amended rule evaluated on a 3-token sequence (padding
case) and on the 81-token sequence `0, 1, …, 80` (truncation case). -/
theorem window_build_rule_witness :
    (([5, 12, 9] : List ℕ).length < maxlen ∧
        buildWindow [5, 12, 9] =
          ([5, 12, 9] ++
              List.replicate (maxlen - ([5, 12, 9] : List ℕ).length) 0,
            ((([5, 12, 9] : List ℕ).length : ℤ) - 1))) ∧
    (maxlen < (List.range 81).length ∧
        buildWindow (List.range 81) =
          ((List.range 81).take maxlen, (maxlen : ℤ) - 1)) :=
  ⟨⟨by decide, (window_build_rule [5, 12, 9]).1 (by decide)⟩,
   ⟨by decide, (window_build_rule (List.range 81)).2 (by decide)⟩⟩

/-- C10: whatever the length of the current working sequence (shorter
than, equal to, or longer than `maxlen`), the input window handed to
`model.predict` has length exactly `maxlen = 80`. -/
theorem window_length_always_maxlen (s : List ℕ) :
    ((buildWindow s).1).length = maxlen := by
  simp only [buildWindow]
  split_ifs with h1 h2
  · simp only [List.length_take]
    omega
  · simp only [List.length_append, List.length_replicate]
    omega
  · show s.length = maxlen
    omega

theorem on_epoch_end_fst (g : TextGenerator) (step : List ℕ → ℤ → ℕ)
    (epoch : ℕ) : (g.on_epoch_end step epoch).1 = g := by
  unfold TextGenerator.on_epoch_end
  split <;> rfl

/-- C9: `on_epoch_end` works on a copy of `self.start_tokens` and assigns
no field of `self`: after any number of invocations the callback state —
in particular the stored prompt — is unchanged, and a later invocation
behaves exactly like one from the original state (generation restarts
from the original prompt). -/
theorem sampler_preserves_prompt (g : TextGenerator)
    (step : List ℕ → ℤ → ℕ) (e epoch : ℕ) :
    runEpochs g step e = g ∧
      (runEpochs g step e).start_tokens = g.start_tokens ∧
      ((runEpochs g step e).on_epoch_end step epoch).2 =
        (g.on_epoch_end step epoch).2 := by
  have hr : runEpochs g step e = g := by
    induction e with
    | zero => rfl
    | succ m ih => rw [runEpochs, ih, on_epoch_end_fst]
  exact ⟨hr, by rw [hr], by rw [hr]⟩

theorem softmax_sum_one {m : ℕ} (hm : 0 < m) (v : Fin m → ℝ) :
    ∑ i, softmax v i = 1 := by
  have hpos : 0 < ∑ j, Real.exp (v j) :=
    Finset.sum_pos (fun j _ => Real.exp_pos (v j))
      ⟨⟨0, hm⟩, Finset.mem_univ _⟩
  simp only [softmax]
  rw [← Finset.sum_div, div_self (ne_of_gt hpos)]

theorem softmax_pos {m : ℕ} (v : Fin m → ℝ) (i : Fin m) :
    0 < softmax v i := by
  have hpos : 0 < ∑ j, Real.exp (v j) :=
    Finset.sum_pos (fun j _ => Real.exp_pos (v j)) ⟨i, Finset.mem_univ _⟩
  exact div_pos (Real.exp_pos _) hpos

/-- C5: provided `0 < k ≤ vocab_size`, the id returned by `sample_from`
is one of the `k` top-scoring vocabulary indices (it belongs to the
top-k index list, and every index outside that list has a logit no larger
than the chosen one), hence is strictly below `vocab_size`; and the
`preds` vector — the softmax of exactly those `k` logit values — is a
probability vector: positive entries summing to 1. -/
theorem sample_from_top_k (g : TextGenerator)
    (logits : Fin vocab_size → ℚ) (hk0 : 0 < g.k) (hkV : g.k ≤ vocab_size)
    (r : Fin (topKIndices logits g.k).length) :
    g.sample_from logits r ∈ topKIndices logits g.k ∧
      ((g.sample_from logits r : Fin vocab_size) : ℕ) < vocab_size ∧
      (∀ b : Fin vocab_size, b ∉ topKIndices logits g.k →
        logits b ≤ logits (g.sample_from logits r)) ∧
      (∑ i, sampleProbs logits g.k i = 1) ∧
      ∀ i, 0 < sampleProbs logits g.k i := by
  have hmem : g.sample_from logits r ∈ topKIndices logits g.k :=
    List.get_mem _ r.1 r.2
  refine ⟨hmem, (g.sample_from logits r).isLt, ?_, ?_, ?_⟩
  · intro b hb
    have hsorted : List.Pairwise (topKRel logits)
        (List.insertionSort (topKRel logits) (List.finRange vocab_size)) :=
      List.sorted_insertionSort _ _
    have hbL : b ∈ List.insertionSort (topKRel logits)
        (List.finRange vocab_size) := by
      rw [List.mem_insertionSort]
      exact List.mem_finRange b
    have hsplit :
        List.insertionSort (topKRel logits) (List.finRange vocab_size) =
          (List.insertionSort (topKRel logits)
              (List.finRange vocab_size)).take g.k ++
            (List.insertionSort (topKRel logits)
              (List.finRange vocab_size)).drop g.k :=
      (List.take_append_drop g.k _).symm
    have hbDrop : b ∈ (List.insertionSort (topKRel logits)
        (List.finRange vocab_size)).drop g.k := by
      rw [hsplit] at hbL
      rcases List.mem_append.mp hbL with hcase | hcase
      · exact absurd hcase hb
      · exact hcase
    rw [hsplit] at hsorted
    exact (List.pairwise_append.mp hsorted).2.2 _ hmem _ hbDrop
  · have hlen : 0 < (topKIndices logits g.k).length := by
      rw [topKIndices, List.length_take, List.length_insertionSort,
        List.length_finRange]
      omega
    simp only [sampleProbs]
    exact softmax_sum_one hlen _
  · intro i
    exact softmax_pos _ i

/-- C5 witness: the theorem instantiated at the demo callback
(`top_k = 10`), the constant-zero logits vector over the 20000-word
vocabulary, and injected draw position 0. -/
theorem sample_from_top_k_witness :
    0 < genDemo.k ∧ genDemo.k ≤ vocab_size ∧
      (genDemo.sample_from logitsDemo sampleDemoIndex ∈
          topKIndices logitsDemo genDemo.k ∧
        ((genDemo.sample_from logitsDemo sampleDemoIndex :
            Fin vocab_size) : ℕ) < vocab_size ∧
        (∀ b : Fin vocab_size, b ∉ topKIndices logitsDemo genDemo.k →
          logitsDemo b ≤
            logitsDemo (genDemo.sample_from logitsDemo sampleDemoIndex)) ∧
        (∑ i, sampleProbs logitsDemo genDemo.k i = 1) ∧
        ∀ i, 0 < sampleProbs logitsDemo genDemo.k i) :=
  ⟨by decide, by decide,
    sample_from_top_k genDemo logitsDemo (by decide) (by decide)
      sampleDemoIndex⟩

/-- C8 counterexample: constructing the sampler with the invalid top-k
value 0 does not fail and reports nothing — the constructor returns a
callback object storing `k = 0` unchanged, so no configuration error is
raised before sampling. -/
theorem init_accepts_invalid_top_k :
    TextGenerator.init 40 [5, 12, 9] [] 0 1 =
        ⟨40, [5, 12, 9], [], 1, 0⟩ ∧
      ¬ 0 < (TextGenerator.init 40 [5, 12, 9] [] 0 1).k :=
  ⟨rfl, by decide⟩

/-- C8 (amended): `TextGenerator.__init__` performs no validation of
`top_k`: construction always succeeds with every argument stored
verbatim, and an invalid value only surfaces at sampling time — with
`top_k = 0` the top-k candidate list built by the sampling step is empty,
leaving `np.random.choice` nothing to draw from mid-sampling. -/
theorem init_no_top_k_validation (m : ℕ) (s : List ℕ) (iw : List String)
    (pe : ℕ) :
    (∀ tk : ℕ, TextGenerator.init m s iw tk pe = ⟨m, s, iw, pe, tk⟩) ∧
      (TextGenerator.init m s iw 0 pe).k = 0 ∧
      ∀ logits : Fin vocab_size → ℚ,
        (topKIndices logits ((TextGenerator.init m s iw 0 pe).k)).length
          = 0 := by
  refine ⟨fun tk => rfl, rfl, fun logits => ?_⟩
  simp only [topKIndices]
  rw [show (TextGenerator.init m s iw 0 pe).k = 0 from rfl, List.take_zero,
    List.length_nil]

theorem two_le_maxlen : 2 ≤ maxlen := by decide

/-- C6: for an input window of length `n ≤ L` (the position table has `L`
rows; the notebook builds the layer with `L = maxlen`), the embedding
output row at position `p` is exactly
`token_table[token[p]] + position_table[p]`, the position index being the
absolute offset of `p` within the current window — `ops.arange(0, n)`
restarts at 0 on every invocation, so no global counter is involved. -/
theorem token_position_embedding_rows {n L V D : ℕ} (hn : n ≤ L)
    (token_emb : Fin V → Fin D → ℝ) (pos_emb : Fin L → Fin D → ℝ)
    (x : Fin n → Fin V) (p : Fin n) :
    TokenAndPositionEmbedding.call hn token_emb pos_emb x p =
      fun d => token_emb (x p) d +
        pos_emb ⟨(p : ℕ), lt_of_lt_of_le p.isLt hn⟩ d := rfl

/-- C6 witness: the row equation evaluated on a window of length 2 with
the demo tables, at position 0. -/
theorem token_position_embedding_rows_witness :
    2 ≤ maxlen ∧
      TokenAndPositionEmbedding.call two_le_maxlen tokDemo posDemo tDemo
          p0 =
        fun d => tokDemo (tDemo p0) d +
          posDemo ⟨(p0 : ℕ), lt_of_lt_of_le p0.isLt two_le_maxlen⟩ d :=
  ⟨two_le_maxlen,
    token_position_embedding_rows two_le_maxlen tokDemo posDemo tDemo p0⟩

theorem dropoutLayer_not_training {n D : ℕ} (noise x : Fin n → Fin D → ℝ) :
    dropoutLayer false noise x = x := rfl

/-- C7: with dropout disabled (`training = False`, as at inference) the
decoder block is a deterministic pure function of its input and learned
weights: its output does not depend on the dropout noise sources, so two
forward passes on identical input and weights produce identical
output. -/
theorem transformer_block_deterministic {n D H dk F : ℕ}
    (W : TransformerBlockWeights D H dk F)
    (noise1 noise2 noise1' noise2' : Fin n → Fin D → ℝ)
    (inputs : Fin n → Fin D → ℝ) :
    TransformerBlock.call W false noise1 noise2 inputs =
      TransformerBlock.call W false noise1' noise2' inputs := rfl

theorem causalMaskEntry_diag_iff {n : ℕ} (i j : Fin n) :
    causalMaskEntry n n (i : ℕ) (j : ℕ) = true ↔ (j : ℕ) ≤ (i : ℕ) := by
  simp only [causalMaskEntry, decide_eq_true_eq, ge_iff_le]
  omega

theorem attention_row_congr {n D H dk F : ℕ}
    (W : TransformerBlockWeights D H dk F) (X X' : Fin n → Fin D → ℝ)
    (i : Fin n) (hX : ∀ j : Fin n, (j : ℕ) ≤ (i : ℕ) → X j = X' j) :
    attentionRow W X i = attentionRow W X' i := by
  have hXi : X i = X' i := hX i le_rfl
  have hs : ∀ (h : Fin H) (j : Fin n), (j : ℕ) ≤ (i : ℕ) →
      attnScore W X h i j = attnScore W X' h i j := by
    intro h j hj
    simp only [attnScore, queryVec, keyVec, hXi, hX j hj]
  have hv : ∀ (h : Fin H) (j : Fin n) (a : Fin dk), (j : ℕ) ≤ (i : ℕ) →
      valueVec W X h j a = valueVec W X' h j a := by
    intro h j a hj
    simp only [valueVec, hX j hj]
  have hw : ∀ (h : Fin H) (j : Fin n),
      attnWeight W X h i j = attnWeight W X' h i j := by
    intro h j
    by_cases hm : causalMaskEntry n n (i : ℕ) (j : ℕ) = true
    · have hj : (j : ℕ) ≤ (i : ℕ) := (causalMaskEntry_diag_iff i j).mp hm
      simp only [attnWeight]
      rw [if_pos hm, if_pos hm, hs h j hj]
      congr 1
      refine Finset.sum_congr rfl fun j' _ => ?_
      by_cases hm' : causalMaskEntry n n (i : ℕ) ((j' : Fin n) : ℕ) = true
      · rw [if_pos hm', if_pos hm',
          hs h j' ((causalMaskEntry_diag_iff i j').mp hm')]
      · rw [if_neg hm', if_neg hm']
    · simp only [attnWeight]
      rw [if_neg hm, if_neg hm]
  have hh : ∀ (h : Fin H) (a : Fin dk),
      attnHeadRow W X h i a = attnHeadRow W X' h i a := by
    intro h a
    simp only [attnHeadRow]
    refine Finset.sum_congr rfl fun j _ => ?_
    by_cases hm : causalMaskEntry n n (i : ℕ) (j : ℕ) = true
    · rw [hw h j, hv h j a ((causalMaskEntry_diag_iff i j).mp hm)]
    · have hz : attnWeight W X h i j = 0 := by
        simp only [attnWeight]
        rw [if_neg hm]
      have hz' : attnWeight W X' h i j = 0 := by
        simp only [attnWeight]
        rw [if_neg hm]
      rw [hz, hz', zero_mul, zero_mul]
  funext d
  simp only [attentionRow, hh]

theorem transformer_block_row_congr {n D H dk F : ℕ}
    (W : TransformerBlockWeights D H dk F)
    (noise1 noise2 : Fin n → Fin D → ℝ) (X X' : Fin n → Fin D → ℝ)
    (i : Fin n) (hX : ∀ j : Fin n, (j : ℕ) ≤ (i : ℕ) → X j = X' j) :
    TransformerBlock.call W false noise1 noise2 X i =
      TransformerBlock.call W false noise1 noise2 X' i := by
  have hXi : X i = X' i := hX i le_rfl
  have hA : attentionRow W X i = attentionRow W X' i :=
    attention_row_congr W X X' i hX
  simp only [TransformerBlock.call, dropoutLayer_not_training]
  rw [hXi, hA]

/-- C2: for a window of `n ≤ L` token ids, if two token sequences agree
at every position `≤ i` then the decoder block applied to their
embeddings — dropout disabled, identical weights — produces identical
output rows at position `i`: perturbing token values at positions `> i`
cannot change the block's output at position `i` (the causal mask is
actually enforced, not merely shaped correctly). -/
theorem decoder_block_causality {n L V D H dk F : ℕ} (hn : n ≤ L)
    (token_emb : Fin V → Fin D → ℝ) (pos_emb : Fin L → Fin D → ℝ)
    (W : TransformerBlockWeights D H dk F)
    (noise1 noise2 : Fin n → Fin D → ℝ) (t t' : Fin n → Fin V) (i : Fin n)
    (hagree : ∀ p : Fin n, (p : ℕ) ≤ (i : ℕ) → t p = t' p) :
    TransformerBlock.call W false noise1 noise2
        (TokenAndPositionEmbedding.call hn token_emb pos_emb t) i =
      TransformerBlock.call W false noise1 noise2
        (TokenAndPositionEmbedding.call hn token_emb pos_emb t') i := by
  apply transformer_block_row_congr
  intro p hp
  simp only [TokenAndPositionEmbedding.call]
  rw [hagree p hp]

/-- C2 witness: two windows of length 2 agreeing at position 0 and
differing at position 1, pushed through the demo embedding tables and the
all-zero block weights: the block outputs at row 0 coincide. -/
theorem decoder_block_causality_witness :
    (2 ≤ maxlen ∧
        ∀ p : Fin 2, (p : ℕ) ≤ (p0 : ℕ) → tDemo p = tDemo' p) ∧
      TransformerBlock.call wDemo false noiseDemo noiseDemo
          (TokenAndPositionEmbedding.call two_le_maxlen tokDemo posDemo
            tDemo) p0 =
        TransformerBlock.call wDemo false noiseDemo noiseDemo
          (TokenAndPositionEmbedding.call two_le_maxlen tokDemo posDemo
            tDemo') p0 :=
  ⟨⟨two_le_maxlen, by decide⟩,
    decoder_block_causality two_le_maxlen tokDemo posDemo wDemo noiseDemo
      noiseDemo tDemo tDemo' p0 (by decide)⟩
